import Mathlib

set_option maxRecDepth 100000

/-!
Verification of the thinkbot backend pipeline (ProcessorAgent, ScraperAgent,
ValidatorAgent, EnhancerAgent, MainAgent, and the FastAPI endpoint) against its
natural-language specification.

Modelling conventions:
* Python values flowing through `json.loads` / `json.dumps` are modelled by the
  inductive type `PyVal` (None, bool, number, string, list, dict).  Numbers are
  modelled by rationals; `dict` is an insertion-ordered association list, which
  matches CPython dict semantics.
* `json.loads` is an external library; agent routines are parameterised over an
  abstract `loads : String -> Except String PyVal` (the `String` in the error is
  the JSONDecodeError message).  The executable instance `miniLoads` below
  models `json.loads` on the JSON fragment exercised by concrete inputs in this
  file (objects, arrays, unescaped strings, decimal numbers, true/false/null,
  with trailing garbage rejected, as `json.loads` rejects it).
* `json.dumps` immediately followed by a `json.loads` on the other side of an
  agent boundary is modelled as the identity on `PyVal` (the round trip of the
  json library); agent results are therefore passed between stages at the value
  level.
* Python exceptions are modelled with `Except PipeErr`; `PipeErr.jsonKind` is
  true for `json.JSONDecodeError` (the FastAPI endpoint branches on it).
* `time.sleep` calls are recorded in a trace (`LoopOut.sleeps`, in seconds) and
  the number of `requests.post` calls in `LoopOut.calls`.
* Python `round` is round-half-to-even (`pyRound`), `int()` truncates toward
  zero (`pyInt`), `float()` on plain decimal literals is `parseDecimal`.
-/

/-- The `{` character, written via its code point to keep source braces out of
character literals. -/
def openBrace : Char := Char.ofNat 123

/-- The `}` character. -/
def closeBrace : Char := Char.ofNat 125

/-- Python `not s or s.isspace()`: true iff every character of `s` is
whitespace (including the empty string). -/
def blankStr (s : String) : Bool :=
  s.toList.all Char.isWhitespace

/-- Does `big` start with `small` (on character lists)? -/
def segStarts : List Char → List Char → Bool
  | [], _ => true
  | _ :: _, [] => false
  | a :: s, b :: t => a = b && segStarts s t

/-- Is `small` a contiguous segment of `big`?  Models Python `small in big`
(substring containment). -/
def segIn (small : List Char) : List Char → Bool
  | [] => segStarts small []
  | c :: rest => segStarts small (c :: rest) || segIn small rest

/-- Python substring containment `small in big`. -/
def strIn (small big : String) : Bool :=
  segIn small.toList big.toList

/-- Python `str.split()` with no argument: split on whitespace runs, dropping
empty pieces. -/
def pySplitWs (s : String) : List String :=
  (s.split Char.isWhitespace).filter (fun w => w ≠ "")

/-- Python built-in `round` on an exact rational: round half to even. -/
def pyRound (q : ℚ) : ℤ :=
  if q - ⌊q⌋ < 1/2 then ⌊q⌋
  else if 1/2 < q - ⌊q⌋ then ⌊q⌋ + 1
  else if ⌊q⌋ % 2 = 0 then ⌊q⌋ else ⌊q⌋ + 1

/-- Python `int()` on a number: truncation toward zero. -/
def pyInt (q : ℚ) : ℤ :=
  if 0 ≤ q then ⌊q⌋ else -⌊-q⌋

/-- Python `max(a, b)` on numbers (kernel-reducible, unlike the lattice sup). -/
def pyMax (a b : ℚ) : ℚ :=
  if a < b then b else a

/-- Python `min(a, b)` on numbers. -/
def pyMin (a b : ℚ) : ℚ :=
  if b < a then b else a

/-- Numeric value of a list of decimal digits. -/
def digitsVal (ds : List Char) : ℕ :=
  ds.foldl (fun a c => 10 * a + (c.toNat - 48)) 0

/-- Python `float()` on a plain decimal string literal (optional sign, integer
part, optional fractional part; exponents, inf and nan are not modelled — no
concrete input in this file uses them). -/
def parseDecimal (s : String) : Option ℚ :=
  let cs := s.trim.toList
  let signed : Bool × List Char :=
    match cs with
    | '-' :: t => (true, t)
    | '+' :: t => (false, t)
    | _ => (false, cs)
  let body := signed.2
  let ip := body.takeWhile Char.isDigit
  let rest := body.drop ip.length
  let mk (ipart : List Char) (fpart : List Char) : ℚ :=
    let v : ℚ := (digitsVal ipart : ℚ) + (digitsVal fpart : ℚ) / ((10 : ℚ) ^ fpart.length)
    if signed.1 then -v else v
  match rest with
  | [] => if ip = [] then none else some (mk ip [])
  | '.' :: tail =>
    let fp := tail.takeWhile Char.isDigit
    if tail.drop fp.length ≠ [] then none
    else if ip = [] && fp = [] then none
    else some (mk ip fp)
  | _ => none

/-- A Python exception: `jsonKind` is true for `json.JSONDecodeError` (the
endpoint distinguishes it), `msg` is `str(e)`. -/
structure PipeErr where
  jsonKind : Bool
  msg : String
deriving DecidableEq, Repr

/-- Python values as produced by `json.loads` (plus `None`/bools needed for
Python-level defaults). `dict` is an insertion-ordered association list. -/
inductive PyVal where
  | pnone
  | pbool (b : Bool)
  | num (q : ℚ)
  | str (s : String)
  | list (xs : List PyVal)
  | dict (es : List (String × PyVal))

/-- Dict read `d[k]` / `d.get(k)`: first (and in CPython, only) binding wins. -/
def dictGet? : PyVal → String → Option PyVal
  | .dict es, k => List.lookup k es
  | _, _ => none

/-- `d.get(k, default)` on an association list. -/
def dictGetD (es : List (String × PyVal)) (k : String) (d : PyVal) : PyVal :=
  (List.lookup k es).getD d

/-- `k in d` on an association list. -/
def dictHas (es : List (String × PyVal)) (k : String) : Bool :=
  (List.lookup k es).isSome

/-- Dict assignment `d[k] = v`: replace in place if the key exists (CPython
keeps the original insertion position), append otherwise. -/
def dictSet : List (String × PyVal) → String → PyVal → List (String × PyVal)
  | [], k, v => [(k, v)]
  | (k', v') :: t, k, v => if k' = k then (k, v) :: t else (k', v') :: dictSet t k v

/-- Python truthiness of a value. -/
def truthy : PyVal → Bool
  | .pnone => false
  | .pbool b => b
  | .num q => q ≠ 0
  | .str s => s ≠ ""
  | .list xs => !xs.isEmpty
  | .dict es => !es.isEmpty

/-- Python `float(x)`: numbers and bools convert, strings are parsed as decimal
literals, everything else raises `TypeError`. -/
def pyFloatE : PyVal → Except PipeErr ℚ
  | .num q => .ok q
  | .pbool b => .ok (if b then 1 else 0)
  | .str s =>
    match parseDecimal s with
    | some q => .ok q
    | none => .error ⟨false, "could not convert string to float"⟩
  | _ => .error ⟨false, "float() argument must be a string or a real number"⟩

/-- Python iteration `for x in v`: lists yield elements, strings yield
single-character strings, dicts yield their keys; other values raise
`TypeError`. -/
def pyIterE : PyVal → Except PipeErr (List PyVal)
  | .list xs => .ok xs
  | .str s => .ok (s.toList.map (fun c => .str (String.mk [c])))
  | .dict es => .ok (es.map (fun e => .str e.1))
  | _ => .error ⟨false, "object is not iterable"⟩

/-! ### A concrete model of `json.loads`

`miniLoads` is an executable recursive-descent parser for the JSON fragment
used by the concrete inputs in this file: objects, arrays, strings without
escape sequences, decimal numbers, `true`/`false`/`null`.  Like `json.loads` it
skips surrounding whitespace and rejects trailing garbage ("Extra data") and
unparseable text ("Expecting value", the JSONDecodeError messages). -/

/-- Skip JSON whitespace. -/
def skipWs (cs : List Char) : List Char :=
  cs.dropWhile Char.isWhitespace

/-- Parse a JSON string body after the opening quote (no escape sequences). -/
def parseStrBody (cs : List Char) : Option (String × List Char) :=
  let body := cs.takeWhile (fun c => c ≠ '"')
  match cs.drop body.length with
  | '"' :: t => some (String.mk body, t)
  | _ => none

/-- Parse a JSON number (optional minus, digits, optional fraction). -/
def parseNumTok (cs : List Char) : Option (PyVal × List Char) :=
  let signed : Bool × List Char :=
    match cs with
    | '-' :: t => (true, t)
    | _ => (false, cs)
  let ip := signed.2.takeWhile Char.isDigit
  if ip.isEmpty then none
  else
    let rest := signed.2.drop ip.length
    let ipv : ℚ := (digitsVal ip : ℚ)
    match rest with
    | '.' :: tail =>
      let fp := tail.takeWhile Char.isDigit
      if fp.isEmpty then none
      else
        let v : ℚ := ipv + (digitsVal fp : ℚ) / ((10 : ℚ) ^ fp.length)
        some (.num (if signed.1 then -v else v), tail.drop fp.length)
    | _ => some (.num (if signed.1 then -ipv else ipv), rest)

/-- Work items of the JSON parser: a value, the members of an object, or the
elements of an array. -/
inductive ParseTask where
  | val (cs : List Char)
  | members (cs : List Char) (acc : List (String × PyVal))
  | elems (cs : List Char) (acc : List PyVal)

/-- Fuel-indexed JSON parser (structural recursion on the fuel, so that the
kernel can evaluate it). -/
def parseJ : Nat → ParseTask → Option (PyVal × List Char)
  | 0, _ => none
  | fuel + 1, .val cs0 =>
    let cs := skipWs cs0
    match cs with
    | [] => none
    | c :: rest =>
      if c = openBrace then
        match skipWs rest with
        | d :: rest' => if d = closeBrace then some (.dict [], rest') else parseJ fuel (.members (skipWs rest) [])
        | [] => none
      else if c = '[' then
        match skipWs rest with
        | d :: rest' => if d = ']' then some (.list [], rest') else parseJ fuel (.elems (skipWs rest) [])
        | [] => none
      else if c = '"' then
        match parseStrBody rest with
        | some (s, rest') => some (.str s, rest')
        | none => none
      else if c.isDigit || c = '-' then parseNumTok cs
      else if segStarts "true".toList cs then some (.pbool true, cs.drop 4)
      else if segStarts "false".toList cs then some (.pbool false, cs.drop 5)
      else if segStarts "null".toList cs then some (.pnone, cs.drop 4)
      else none
  | fuel + 1, .members cs0 acc =>
    match skipWs cs0 with
    | '"' :: rest =>
      match parseStrBody rest with
      | some (k, rest1) =>
        (match skipWs rest1 with
         | ':' :: rest2 =>
           (match parseJ fuel (.val rest2) with
            | some (v, rest3) =>
              let acc' := dictSet acc k v
              (match skipWs rest3 with
               | ',' :: rest4 => parseJ fuel (.members rest4 acc')
               | d :: rest4 =>
                 if d = closeBrace then some (.dict acc', rest4) else none
               | [] => none)
            | none => none)
         | _ => none)
      | none => none
    | _ => none
  | fuel + 1, .elems cs0 acc =>
    match parseJ fuel (.val cs0) with
    | some (v, rest) =>
      (match skipWs rest with
       | ',' :: rest1 => parseJ fuel (.elems rest1 (acc ++ [v]))
       | ']' :: rest1 => some (.list (acc ++ [v]), rest1)
       | _ => none)
    | none => none

/-- Executable model of `json.loads` (see the section header): parses a whole
string to a `PyVal`, or fails with the JSONDecodeError message. -/
def miniLoads (s : String) : Except String PyVal :=
  let cs := s.toList
  match parseJ (2 * cs.length + 4) (.val cs) with
  | some (v, rest) => if (skipWs rest).isEmpty then .ok v else .error "Extra data"
  | none => .error "Expecting value"

/-! ### JSON extraction and repair (shared by ScraperAgent and ValidatorAgent) -/

/-- Index of the first occurrence of `c`. -/
def firstIdxOf (c : Char) : List Char → Option ℕ
  | [] => none
  | a :: t => if a = c then some 0 else (firstIdxOf c t).map (· + 1)

/-- Index of the last occurrence of `c`. -/
def lastIdxOf (c : Char) (l : List Char) : Option ℕ :=
  (firstIdxOf c l.reverse).map (fun i => l.length - 1 - i)

/-- The span matched by `re.search(r'\x7b[\s\S]*\x7d', s)`: the (greedy,
backtracking) regex matches from the first open brace to the last close brace
of the whole text, when the former precedes the latter. -/
def greedySpan (s : String) : Option String :=
  let cs := s.toList
  match firstIdxOf openBrace cs, lastIdxOf closeBrace cs with
  | some i, some j => if i < j then some (String.mk ((cs.drop i).take (j - i + 1))) else none
  | _, _ => none

/-- Depth-counting scan used by `balancedSpan`. -/
def scanBal : List Char → Nat → List Char → Option (List Char)
  | [], _, _ => none
  | c :: rest, depth, acc =>
    if c = openBrace then scanBal rest (depth + 1) (c :: acc)
    else if c = closeBrace then
      match depth with
      | 0 => none
      | 1 => some ((c :: acc).reverse)
      | d + 2 => scanBal rest (d + 1) (c :: acc)
    else scanBal rest depth (c :: acc)

/-- Modelled from the spec: the first balanced brace-delimited span of the
text, found by a depth-counting scan starting at the first open brace.  (The
repository code does not contain this routine; the spec describes the
extraction step this way, and this definition is the comparison point.) -/
def balancedSpan (s : String) : Option String :=
  (scanBal (s.toList.dropWhile (fun c => c ≠ openBrace)) 0 []).map String.mk

/-- The JSON extraction/repair routine as implemented identically in
`ScraperAgent.query_mistral` and `ValidatorAgent.query_mistral`: direct
`json.loads` of the stripped content; on JSONDecodeError, `re.search` for a
brace span and `json.loads` of the matched span (a JSONDecodeError there
propagates); `ValueError("No valid JSON found in response")` when the regex
finds no span. -/
def extractRepair (loads : String → Except String PyVal) (content : String) :
    Except PipeErr PyVal :=
  match loads content.trim with
  | .ok v => .ok v
  | .error _ =>
    match greedySpan content with
    | some sp =>
      match loads sp with
      | .ok v => .ok v
      | .error msg => .error ⟨true, msg⟩
    | none => .error ⟨false, "No valid JSON found in response"⟩

/-- Modelled from the spec: the extraction/repair routine as the spec words it,
with the first *balanced* brace span in place of the greedy regex span. -/
def specExtractRepair (loads : String → Except String PyVal) (content : String) :
    Except PipeErr PyVal :=
  match loads content.trim with
  | .ok v => .ok v
  | .error _ =>
    match balancedSpan content with
    | some sp =>
      match loads sp with
      | .ok v => .ok v
      | .error msg => .error ⟨true, msg⟩
    | none => .error ⟨false, "No valid JSON found in response"⟩

/-! ### ScraperAgent (`src/Agent/scraper_agent.py`) -/

/-- The category → keyword table of `ScraperAgent._get_category`, in
declaration order. -/
def categoriesTable : List (String × List String) :=
  [("E-commerce", ["shop", "retail", "store", "marketplace", "commerce", "sell"]),
   ("FinTech", ["payment", "finance", "bank", "invest", "money", "trading"]),
   ("EdTech", ["education", "learn", "teach", "student", "school", "course"]),
   ("HealthTech", ["health", "medical", "wellness", "fitness", "doctor", "patient"]),
   ("AI/ML", ["ai", "machine learning", "artificial intelligence", "predict", "automate"]),
   ("SaaS", ["software", "platform", "service", "cloud", "subscription"]),
   ("Enterprise", ["business", "enterprise", "corporate", "company", "organization"]),
   ("Consumer", ["user", "consumer", "personal", "individual", "customer"]),
   ("Mobile", ["app", "mobile", "phone", "ios", "android"]),
   ("IoT", ["iot", "device", "sensor", "hardware", "smart home"])]

/-- `ScraperAgent._get_category`: lowercase the description, count keyword
substring hits per category, keep the first category with a strictly larger
hit count (declaration order breaks ties), default "General". -/
def getCategoryStr (desc : String) : String :=
  let d := desc.toLower
  (categoriesTable.foldl
    (fun (acc : Nat × String) ck =>
      let m := (ck.2.filter (fun k => strIn k d)).length
      if m > acc.1 then (m, ck.1) else acc)
    (0, "General")).2

/-- `self._get_category(idea["idea_description"])`: Python calls `.lower()` on
the description, so a non-string raises `AttributeError` (caught by the retry
loop). -/
def getCategoryE : PyVal → Except PipeErr String
  | .str s => .ok (getCategoryStr s)
  | _ => .error ⟨false, "object has no attribute lower"⟩

/-- The similarity written into the idea at list index `i` with jitter `u`
(`random.uniform(-5, 5)`):
`round(max(1, min(100, max(85 - i*10, 25) + u)))` — clamp first, then Python
round, exactly as in the source. -/
def similarityAt (i : Nat) (u : ℚ) : ℤ :=
  pyRound (pyMax 1 (pyMin 100 (pyMax ((85 : ℚ) - 10 * i) 25 + u)))

/-- A surviving competitor entry: a dict whose `idea_name` and
`idea_description` are present and truthy. -/
def validIdea : PyVal → Bool
  | .dict es => truthy (dictGetD es "idea_name" .pnone) && truthy (dictGetD es "idea_description" .pnone)
  | _ => false

/-- The enrichment loop of `ScraperAgent.query_mistral` (source lines 218-226):
for the idea at index `i`, set `idea["similarity"]` and then
`idea["category"] = idea.get("category", self._get_category(...))` — the
`get` default is evaluated eagerly, so a non-string description always raises.
A non-dict entry cannot occur here (the filter keeps only dicts); the
corresponding branch mirrors the `TypeError` Python would raise on item
assignment. -/
def enrichIdeas (jit : Nat → ℚ) : Nat → List PyVal → Except PipeErr (List PyVal)
  | _, [] => .ok []
  | i, idea :: rest =>
    match idea with
    | .dict es =>
      match getCategoryE (dictGetD es "idea_description" .pnone) with
      | .error e => .error e
      | .ok cat =>
        let es1 := dictSet es "similarity" (.num ((similarityAt i (jit i) : ℤ) : ℚ))
        let es2 := dictSet es1 "category" (dictGetD es1 "category" (.str cat))
        match enrichIdeas jit (i + 1) rest with
        | .error e => .error e
        | .ok tl => .ok (.dict es2 :: tl)
    | _ => .error ⟨false, "object does not support item assignment"⟩

/-- Processing of an HTTP 200 body in `ScraperAgent.query_mistral` (source
lines 177-231), given the message content and the jitter draws of this
attempt: empty-content check, JSON extraction/repair, defaulting of non-dict
data and of a missing `similar_ideas` key, filtering of valid ideas,
enrichment, and the `ValueError` when no valid idea remains.  Any `.error`
is caught by the retry loop. -/
def process200s (loads : String → Except String PyVal) (jit : Nat → ℚ)
    (content : String) : Except PipeErr PyVal :=
  if blankStr content then .error ⟨false, "Empty response from Mistral API"⟩
  else
    match extractRepair loads content with
    | .error e => .error e
    | .ok v0 =>
      let v1 : List (String × PyVal) :=
        match v0 with
        | .dict es => es
        | _ => [("similar_ideas", .list [])]
      let v2 := if dictHas v1 "similar_ideas" then v1 else dictSet v1 "similar_ideas" (.list [])
      match pyIterE (dictGetD v2 "similar_ideas" .pnone) with
      | .error e => .error e
      | .ok items =>
        let valid := items.filter validIdea
        let v3 := dictSet v2 "similar_ideas" (.list valid)
        if valid.isEmpty then .error ⟨false, "No valid ideas found in response"⟩
        else
          match enrichIdeas jit 0 valid with
          | .error e => .error e
          | .ok enriched => .ok (.dict (dictSet v3 "similar_ideas" (.list enriched)))

/-! ### The retry loop shared by ScraperAgent and ValidatorAgent

Both `query_mistral` methods run the same `for attempt in range(max_retries)`
loop: HTTP 200 bodies are processed (failures backed off with `2 ** attempt`
seconds unless on the last attempt), HTTP 429 is retried the same way, any
other status breaks out of the loop, and transport-level exceptions are
retried after a flat 1-second sleep.  `runLoop` is that loop, parameterised by
the 200-processing function and by the structured error value built after the
loop.  The environment (one `LLMAttempt` per prospective attempt) describes
the provider's behaviour; `max_retries` equals the length of the attempt
list. -/

/-- Provider behaviour for one attempt: a 200 response whose envelope yields
`content`; a 200 response whose envelope is broken (`response.json()` raising
JSONDecodeError when `jsonKind`, else KeyError/IndexError); HTTP 429; another
HTTP status; or a transport-level exception from `requests.post`. -/
inductive LLMAttempt where
  | ok (content : String)
  | badEnvelope (jsonKind : Bool) (msg : String)
  | rateLimited (body : String)
  | httpError (status : Nat) (body : String)
  | transport (msg : String)
deriving DecidableEq, Repr

/-- Result of a retry loop: the returned value, the trace of `time.sleep`
durations (seconds), and the number of `requests.post` calls made. -/
structure LoopOut where
  result : PyVal
  sleeps : List ℚ
  calls : Nat

/-- `2 ** attempt` backoff, skipped on the last attempt. -/
def backoffSleep (maxR i : Nat) : List ℚ :=
  if i < maxR - 1 then [(2 : ℚ) ^ i] else []

/-- Flat 1-second sleep after a transport error, skipped on the last attempt. -/
def flatSleep (maxR i : Nat) : List ℚ :=
  if i < maxR - 1 then [1] else []

/-- The shared retry loop (see the section header).  Arguments after `maxR`:
remaining attempts, current attempt index, `last_error`, and the last
successfully extracted `response_content` (the validator's `raw_response`). -/
def runLoop (process : Nat → String → Except PipeErr PyVal)
    (mkErr : Option String → Option String → PyVal) (maxR : Nat) :
    List LLMAttempt → Nat → Option String → Option String → LoopOut
  | [], _, le, lc => ⟨mkErr le lc, [], 0⟩
  | a :: rest, i, _le, lc =>
    match a with
    | .ok content =>
      match process i content with
      | .ok v => ⟨v, [], 1⟩
      | .error e =>
        let out := runLoop process mkErr maxR rest (i + 1) (some e.msg) (some content)
        ⟨out.result, backoffSleep maxR i ++ out.sleeps, out.calls + 1⟩
    | .badEnvelope _ m =>
      let out := runLoop process mkErr maxR rest (i + 1) (some m) lc
      ⟨out.result, backoffSleep maxR i ++ out.sleeps, out.calls + 1⟩
    | .rateLimited _ =>
      let out := runLoop process mkErr maxR rest (i + 1) (some "Rate limit exceeded") lc
      ⟨out.result, backoffSleep maxR i ++ out.sleeps, out.calls + 1⟩
    | .httpError s b =>
      ⟨mkErr (some ("HTTP " ++ toString s ++ ": " ++ b)) lc, [], 1⟩
    | .transport m =>
      let out := runLoop process mkErr maxR rest (i + 1) (some m) lc
      ⟨out.result, flatSleep maxR i ++ out.sleeps, out.calls + 1⟩

/-- Render of Python `f"... {last_error}"` on an `Optional[str]`. -/
def optStr : Option String → String
  | some m => m
  | none => "None"

/-- The structured error value returned by `ScraperAgent.query_mistral` when
the loop exhausts or breaks. -/
def scraperErrVal (maxR : Nat) (le : Option String) : PyVal :=
  .dict [("similar_ideas", .list []),
         ("error", .str ("Failed to get valid response after " ++ toString maxR ++
           " attempts. Last error: " ++ optStr le))]

/-- `ScraperAgent.query_mistral` with provider behaviour `attempts` (so
`max_retries = attempts.length`) and jitter draws `jit attempt index`. -/
def scraperRun (loads : String → Except String PyVal) (jit : Nat → Nat → ℚ)
    (attempts : List LLMAttempt) : LoopOut :=
  runLoop (fun i c => process200s loads (jit i) c)
    (fun le _ => scraperErrVal attempts.length le) attempts.length attempts 0 none none

/-! ### ValidatorAgent (`src/Agent/validator.py`)

`_analyze_competitors` re-runs ScraperAgent, but its output flows only into
the prompt text (and every exception inside it is swallowed), so it does not
affect the observable result and is not modelled. -/

/-- The six required score keys, in the order of `_validate_scores`. -/
def sixKeys : List String :=
  ["uniqueness", "feasibility", "market_trend",
   "scalability", "problem_relevance", "user_adoption_potential"]

/-- `ValidatorAgent._validate_scores`: `data` must be a dict with a
`validation_scores` dict containing all six keys, each convertible by
`float()` to a value in [0, 10]. -/
def validateScores (v : PyVal) : Bool :=
  match v with
  | .dict es =>
    match List.lookup "validation_scores" es with
    | some (.dict vs) =>
      sixKeys.all (fun k =>
        match List.lookup k vs with
        | some sv =>
          match pyFloatE sv with
          | .ok q => decide (0 ≤ q ∧ q ≤ 10)
          | .error _ => false
        | none => false)
    | _ => false
  | _ => false

/-- `for key in scores: scores[key] = round(float(scores[key]))` over every
entry of `validation_scores` (not only the six required keys); a `float()`
failure on any entry raises and is caught by the retry loop. -/
def roundScores : List (String × PyVal) → Except PipeErr (List (String × PyVal))
  | [] => .ok []
  | (k, sv) :: rest =>
    match pyFloatE sv with
    | .error e => .error e
    | .ok q =>
      match roundScores rest with
      | .error e => .error e
      | .ok tl => .ok ((k, .num ((pyRound q : ℤ) : ℚ)) :: tl)

/-- `sum(scores.values())` after rounding (every value is a number then). -/
def sumScores : List (String × PyVal) → ℚ
  | [] => 0
  | (_, .num q) :: rest => q + sumScores rest
  | _ :: rest => sumScores rest

/-- Processing of an HTTP 200 body in `ValidatorAgent.query_mistral` (source
lines 191-220): empty-content check, JSON extraction/repair, score
validation, local rounding of every `validation_scores` entry, and local
recomputation of `overall_score` as the sum of the rounded entries. -/
def process200v (loads : String → Except String PyVal) (content : String) :
    Except PipeErr PyVal :=
  if blankStr content then .error ⟨false, "Empty response from API"⟩
  else
    match extractRepair loads content with
    | .error e => .error e
    | .ok v =>
      if validateScores v then
        match v with
        | .dict es =>
          match List.lookup "validation_scores" es with
          | some (.dict vs) =>
            (match roundScores vs with
             | .error e => .error e
             | .ok vs' =>
               .ok (.dict (dictSet (dictSet es "validation_scores" (.dict vs'))
                 "overall_score" (.num (sumScores vs')))))
          | _ => .error ⟨false, "Invalid score values in response"⟩
        | _ => .error ⟨false, "Invalid score values in response"⟩
      else .error ⟨false, "Invalid score values in response"⟩

/-- The all-zero score block of the validator's fallback value. -/
def zeroScores : List (String × PyVal) :=
  sixKeys.map (fun k => (k, .num 0))

/-- The structured error value returned by `ValidatorAgent.query_mistral` when
the loop exhausts or breaks; `raw_response` is the last extracted
`response_content` if any (`None` otherwise). -/
def validatorErrVal (maxR : Nat) (le lc : Option String) : PyVal :=
  .dict [("validation_scores", .dict zeroScores),
         ("overall_score", .num 0),
         ("error", .str ("Failed to get valid validation scores after " ++ toString maxR ++
           " attempts. Last error: " ++ optStr le)),
         ("raw_response", match lc with | some c => .str c | none => .pnone)]

/-- `ValidatorAgent.query_mistral` with provider behaviour `attempts`
(so `max_retries = attempts.length`). -/
def validatorRun (loads : String → Except String PyVal)
    (attempts : List LLMAttempt) : LoopOut :=
  runLoop (fun _ c => process200v loads c)
    (validatorErrVal attempts.length) attempts.length attempts 0 none none

/-! ### EnhancerAgent (`src/Agent/enhancer_agent.py`)

The embedded ScraperAgent call feeds only the prompt (and `enhance_idea`
swallows every exception around its parsing), so it is not modelled. -/

/-- `EnhancerAgent._similarity_score`: word-set Jaccard similarity of the
lowercased whitespace-split words (0 when either text is empty or the union is
empty). -/
def simScore (t1 t2 : String) : ℚ :=
  if t1 = "" ∨ t2 = "" then 0
  else
    let w1 := (pySplitWs t1.toLower).toFinset
    let w2 := (pySplitWs t2.toLower).toFinset
    let inter := (w1 ∩ w2).card
    let uni := (w1 ∪ w2).card
    if uni > 0 then (inter : ℚ) / (uni : ℚ) else 0

/-- The bullet/marker characters of `line.lstrip('.-●•○◆◇■□▪️▫️►→')` (Python
treats the argument as a character set; `▪️` and `▫️` each contribute a base
character and U+FE0F). -/
def bulletChars : List Char :=
  ['.', '-', '●', '•', '○', '◆', '◇', '■', '□', '▪', '️', '▫', '►', '→']

/-- Per-line cleanup inside `enhance_idea` (source lines 99-112): strip, drop
empties, remove `*` and `-`, strip a leading `N.`-style numbering, strip
leading bullet glyphs, strip again; `none` when the line vanishes. -/
def cleanLine (line : String) : Option String :=
  let l1 := line.trim
  if l1 = "" then none
  else
    let l2 := (l1.replace "*" "").replace "-" ""
    let l3 :=
      if l2 ≠ "" && l2.front.isDigit
      then (String.intercalate "." ((l2.splitOn ".").drop 1)).trim
      else l2
    let l4 := (String.mk (l3.toList.dropWhile (fun c => bulletChars.contains c))).trim
    if l4 = "" then none else some l4

/-- Per-section cleanup (source lines 96-118): clean each line and join the
survivors with single spaces; `none` when no line survives. -/
def cleanSection (sect : String) : Option String :=
  let cleaned := (sect.splitOn "\n").filterMap cleanLine
  if cleaned.isEmpty then none else some (String.intercalate " " cleaned)

/-- The duplicate test of the dedup loop: case-insensitive substring in either
direction against a retained section, or word-set Jaccard similarity
strictly above 0.7. -/
def isDupAgainst (x : String) (kept : List String) : Bool :=
  kept.any (fun s =>
    strIn x.toLower s.toLower || strIn s.toLower x.toLower ||
    decide (simScore x s > 7 / 10))

/-- The dedup loop as written in the source: `seen_content` is a set (modelled
as a list used only through membership) and `unique_sections` the output
list; the duplicate check runs over `seen_content`. -/
def dedupAux : List String → List String → List String → List String
  | _, uniq, [] => uniq
  | seen, uniq, x :: rest =>
    if isDupAgainst x seen then dedupAux seen uniq rest
    else dedupAux (x :: seen) (uniq ++ [x]) rest

/-- `enhance_idea`'s deduplication over the cleaned sections, in order. -/
def dedupSource (l : List String) : List String :=
  dedupAux [] [] l

/-- Modelled from the spec: drop a section iff it is a case-insensitive
substring of an already-kept section, an already-kept section is a substring
of it, or its word-set Jaccard similarity with some already-kept section
exceeds 0.70; keep in first-seen order.  (Spec-side comparison point for the
refinement proof; the source carries a separate `seen_content` set.) -/
def specDedup (kept : List String) : List String → List String
  | [] => kept
  | x :: rest =>
    if isDupAgainst x kept then specDedup kept rest
    else specDedup (kept ++ [x]) rest

/-- The whole post-processing of `enhance_idea` on the model's content: split
into blank-line sections, clean each, deduplicate, re-join with blank lines.
(The source interleaves cleaning and dedup in one pass; the dedup state only
ever depends on previously kept sections, so the two-phase form is the same
function.) -/
def enhancePost (content : String) : String :=
  let sections := content.splitOn "\n\n"
  let cleaned := sections.filterMap (fun s => if s.trim = "" then none else cleanSection s)
  String.intercalate "\n\n" (dedupSource cleaned)

/-- `EnhancerAgent.enhance_idea` given the provider's behaviour for its single
`requests.post` (no retry loop here): a 200 with blank content raises
`ValueError("Empty response from API")`, a broken envelope raises, a non-200
status (including 429) returns the `"Error: status, body"` string, a
transport exception propagates. -/
def enhanceIdea : LLMAttempt → Except PipeErr String
  | .ok content =>
    let c := content.trim
    if c = "" then .error ⟨false, "Empty response from API"⟩
    else .ok (enhancePost c)
  | .badEnvelope j m => .error ⟨j, m⟩
  | .rateLimited b => .ok ("Error: 429, " ++ b)
  | .httpError s b => .ok ("Error: " ++ toString s ++ ", " ++ b)
  | .transport m => .error ⟨false, m⟩

/-! ### MainAgent (`src/Agent/main_agent.py`) and the endpoint (`src/api/app.py`) -/

/-- One display score entry `a dict of category, score, explanation, color`. -/
structure ScoreEntry where
  category : String
  score : ℤ
  explanation : String
  color : String
deriving DecidableEq, Repr

/-- The static `score_mappings` table of `run_pipeline`:
key → (category, explanation, color). -/
def scoreMappings : List (String × String × String × String) :=
  [("uniqueness", "Uniqueness",
    "How original the idea is compared to existing solutions", "from-purple-400 to-pink-500"),
   ("feasibility", "Feasibility",
    "Practicality of building and executing the idea", "from-green-400 to-emerald-500"),
   ("market_trend", "Market Trend",
    "Alignment with current and emerging market trends", "from-blue-400 to-indigo-500"),
   ("scalability", "Scalability",
    "Ability to expand and grow at larger scale", "from-orange-400 to-red-500"),
   ("problem_relevance", "Problem Relevance",
    "Importance of the problem being solved", "from-cyan-400 to-blue-500"),
   ("user_adoption_potential", "User Adoption",
    "Likelihood that users will adopt this solution", "from-yellow-400 to-orange-500")]

/-- The body of the scores loop: build an entry per mapped key with
`int(float(score) * 10)`; a `float()` failure raises (wiping all scores). -/
def buildScores : List (String × PyVal) → Except PipeErr (List ScoreEntry)
  | [] => .ok []
  | (k, sv) :: rest =>
    match (scoreMappings.filter (fun m => m.1 = k)).head? with
    | some m =>
      (match pyFloatE sv with
       | .error e => .error e
       | .ok q =>
         match buildScores rest with
         | .error e => .error e
         | .ok tl => .ok (⟨m.2.1, pyInt (q * 10), m.2.2.1, m.2.2.2⟩ :: tl))
    | none => buildScores rest

/-- Structuring of the validator result (source lines 73-87): the whole block
sits in a `try` whose `except` resets `scores` to `[]`, and the loop runs
only when the parsed value is a dict with a `validation_scores` dict. -/
def structureScores (v : PyVal) : List ScoreEntry :=
  match v with
  | .dict es =>
    match List.lookup "validation_scores" es with
    | some (.dict vs) =>
      (match buildScores vs with
       | .ok l => l
       | .error _ => [])
    | some _ => []
    | none => []
  | _ => []

/-- One suggestion entry. -/
structure SuggestionItem where
  category : String
  tip : String
  priority : String
deriving DecidableEq, Repr

/-- The first pass over `suggestions_text.split("\n")` (source lines
100-102): `i` enumerates *all* lines; blank lines are dropped, and each kept
line becomes `s.strip().replace(f"N.", "").strip()` for `N = i + 1` — which
may be empty. -/
def stripNumberedLines (i : Nat) : List String → List String
  | [] => []
  | s :: rest =>
    if s.trim = "" then stripNumberedLines (i + 1) rest
    else ((s.trim).replace (toString (i + 1) ++ ".") "").trim :: stripNumberedLines (i + 1) rest

/-- The second pass (source lines 105-114): `i` enumerates the stripped list
(including its empty entries); falsy entries are skipped, the rest get a
priority from `i`. -/
def buildSuggestions (i : Nat) : List String → List SuggestionItem
  | [] => []
  | s :: rest =>
    if s = "" then buildSuggestions (i + 1) rest
    else ⟨"Enhancement", s, if i < 2 then "high" else if i < 4 then "medium" else "low"⟩ ::
      buildSuggestions (i + 1) rest

/-- Structuring of the enhancer text into suggestion items (nothing in the
surrounding `try` can raise). -/
def structureSuggestions (text : String) : List SuggestionItem :=
  buildSuggestions 0 (stripNumberedLines 0 (text.splitOn "\n"))

/-- The competitors-parsing block of `run_pipeline` (source lines 24-31) at
the value level: a dict containing `similar_ideas` yields that value
(whatever it is — no list check on this branch), a list is kept as is,
anything else becomes `[]`.  The `json.loads` cannot fail here: the scraper
output is its own `json.dumps`. -/
def parseCompetitors (v : PyVal) : PyVal :=
  match v with
  | .dict es =>
    match List.lookup "similar_ideas" es with
    | some x => x
    | none => .list []
  | .list xs => .list xs
  | _ => .list []

/-- The competitor-structuring loop (source lines 119-129, not inside any
`try`): non-dict entries are skipped; `float(comp.get("similarity", 50))`
raises out of `run_pipeline` when the value is not numeric. -/
def structureCompetitors : PyVal → Except PipeErr (List PyVal)
  | .list xs => structureCompetitorsList xs
  | _ => .ok []
where
  structureCompetitorsList : List PyVal → Except PipeErr (List PyVal)
    | [] => .ok []
    | .dict es :: rest =>
      (match pyFloatE (dictGetD es "similarity" (.num 50)) with
       | .error e => .error e
       | .ok sim =>
         match structureCompetitorsList rest with
         | .error e => .error e
         | .ok tl =>
           .ok (.dict [("name", dictGetD es "idea_name" (.str "Unnamed Competitor")),
                       ("description", dictGetD es "idea_description" (.str "")),
                       ("website", dictGetD es "website" (.str "")),
                       ("category", dictGetD es "category" (.str "General")),
                       ("similarity", .num sim)] :: tl))
    | _ :: rest => structureCompetitorsList rest

/-- The four-field pipeline result. -/
structure PipelineResult where
  scores : List ScoreEntry
  suggestions : List SuggestionItem
  competitors : List PyVal
  error : Option String

/-- Provider/environment behaviour for one whole pipeline run: the outcome of
`ProcessorAgent.process_file`, the per-attempt behaviour and jitter draws of
the direct ScraperAgent run, the per-attempt behaviour of the validator's own
LLM calls, and the single enhancer call.  (The scraper re-runs inside
ValidatorAgent and EnhancerAgent influence only prompt text and are not
modelled; agent constructors re-read the file just written by the processor,
so they are non-raising once the processor has succeeded.) -/
structure PipelineEnv where
  processor : Except PipeErr String
  scraperAttempts : List LLMAttempt
  scraperJit : Nat → Nat → ℚ
  validatorAttempts : List LLMAttempt
  enhancerResponse : LLMAttempt

/-- `MainAgent.run_pipeline`: the four stages in source order.  The only
`try`/`except` blocks inside it are the ones modelled in `structureScores`,
`structureSuggestions` and the competitors parse; exceptions raised by
`process_file`, by `enhance_idea`, or by the competitor structuring loop
propagate to the caller. -/
def runPipeline (loads : String → Except String PyVal) (env : PipelineEnv) :
    Except PipeErr PipelineResult :=
  match env.processor with
  | .error e => .error e
  | .ok _processed =>
    let comp := (scraperRun loads env.scraperJit env.scraperAttempts).result
    let competitors := parseCompetitors comp
    let valRes := (validatorRun loads env.validatorAttempts).result
    let scores := structureScores valRes
    match enhanceIdea env.enhancerResponse with
    | .error e => .error e
    | .ok sugText =>
      let suggestions := structureSuggestions sugText
      match structureCompetitors competitors with
      | .error e => .error e
      | .ok structured => .ok ⟨scores, suggestions, structured, Option.none⟩

/-- The `/run-pipeline` endpoint handler (`src/api/app.py`): the result of a
successful `run_pipeline` is returned as is (its four fields are always
present), a `json.JSONDecodeError` becomes the all-empty result with an
`Invalid JSON response:` error, any other exception the all-empty result
with a `Pipeline error:` error. -/
def appHandler (loads : String → Except String PyVal) (env : PipelineEnv) :
    PipelineResult :=
  match runPipeline loads env with
  | .ok r => r
  | .error e =>
    ⟨[], [], [],
     some ((if e.jsonKind then "Invalid JSON response: " else "Pipeline error: ") ++ e.msg)⟩

/-! ### ProcessorAgent (`src/Agent/processor_agent.py`)

The NLTK tokenizer, stopword list, stemmer and lemmatizer, and the
docx/odt readers and writers are external collaborators; `ProcParams`
abstracts them. -/

/-- External collaborators of the processor. -/
structure ProcParams where
  tok : String → List String
  isStop : String → Bool
  stem : String → String
  lemm : String → String
  extractDocx : String → String
  extractOdt : String → String
  renderDocx : String → String
  renderOdt : String → String

/-- `ProcessorAgent.preprocess_text`: lowercase, drop every character outside
`a-z0-9` and whitespace, tokenize, remove stopwords, stem, lemmatize, join
with single spaces. -/
def preprocessText (P : ProcParams) (s : String) : String :=
  let s1 := s.toLower
  let s2 := String.mk (s1.toList.filter (fun c => c.isLower || c.isDigit || c.isWhitespace))
  let ts := P.tok s2
  let ts := ts.filter (fun w => !(P.isStop w))
  let ts := ts.map P.stem
  let ts := ts.map P.lemm
  String.intercalate " " ts

/-- A file store: path → stored content (the stored content of a docx/odt
file is its on-disk document, read back through the extractors). -/
structure FS where
  files : String → Option String

/-- Point update of the store. -/
def updateFS (fs : FS) (p c : String) : FS :=
  ⟨fun q => if q = p then some c else fs.files q⟩

/-- The read half of `process_file`: `.txt` is read directly, `.docx`/`.odt`
through their extractors, anything else raises
`ValueError("Unsupported file format")`. -/
def readRaw (P : ProcParams) (fs : FS) (path : String) : Except PipeErr String :=
  if path.endsWith ".txt" then
    match fs.files path with
    | some c => .ok c
    | none => .error ⟨false, "No such file or directory"⟩
  else if path.endsWith ".docx" then
    match fs.files path with
    | some c => .ok (P.extractDocx c)
    | none => .error ⟨false, "No such file or directory"⟩
  else if path.endsWith ".odt" then
    match fs.files path with
    | some c => .ok (P.extractOdt c)
    | none => .error ⟨false, "No such file or directory"⟩
  else .error ⟨false, "Unsupported file format"⟩

/-- How `overwrite_file` encodes the processed text for each format. -/
def encodeFor (P : ProcParams) (path content : String) : String :=
  if path.endsWith ".txt" then content
  else if path.endsWith ".docx" then P.renderDocx content
  else P.renderOdt content

/-- `ProcessorAgent.overwrite_file`: write the preprocessed text back to the
same path in the appropriate format. -/
def overwriteFile (P : ProcParams) (fs : FS) (path content : String) :
    Except PipeErr FS :=
  if path.endsWith ".txt" || path.endsWith ".docx" || path.endsWith ".odt" then
    .ok (updateFS fs path (encodeFor P path content))
  else .error ⟨false, "Unsupported file format for overwrite"⟩

/-- `ProcessorAgent.process_file`: read, preprocess, overwrite the same file,
return the preprocessed text. -/
def processFile (P : ProcParams) (fs : FS) (path : String) :
    Except PipeErr (String × FS) :=
  match readRaw P fs path with
  | .error e => .error e
  | .ok raw =>
    let pre := preprocessText P raw
    match overwriteFile P fs path pre with
    | .error e => .error e
    | .ok fs' => .ok (pre, fs')

/-- The decoded raw text of a stored file, per extension. -/
def decodeFor (P : ProcParams) (path c : String) : String :=
  if path.endsWith ".txt" then c
  else if path.endsWith ".docx" then P.extractDocx c
  else P.extractOdt c

/-- A path the processor supports. -/
def supportedExt (path : String) : Bool :=
  path.endsWith ".txt" || path.endsWith ".docx" || path.endsWith ".odt"

/-! ### Derived trace functions and concrete environments used by theorems -/

/-- The retry-triggering outcome of one attempt under a given 200-processing
function: the caught error message when the attempt loops, `none` when the
attempt returns or breaks. -/
def retryMsgG (process : Nat → String → Except PipeErr PyVal) (i : Nat) :
    LLMAttempt → Option String
  | .ok c =>
    match process i c with
    | .ok _ => none
    | .error e => some e.msg
  | .badEnvelope _ m => some m
  | .rateLimited _ => some "Rate limit exceeded"
  | .transport m => some m
  | .httpError _ _ => none

/-- `retryMsgG` for the scraper's 200-processing. -/
def retryMsgS (loads : String → Except String PyVal) (jit : Nat → Nat → ℚ)
    (i : Nat) (a : LLMAttempt) : Option String :=
  retryMsgG (fun n c => process200s loads (jit n) c) i a

/-- `retryMsgG` for the validator's 200-processing. -/
def retryMsgV (loads : String → Except String PyVal) (i : Nat) (a : LLMAttempt) :
    Option String :=
  retryMsgG (fun _ c => process200v loads c) i a

/-- The value of `last_error` after a run of retry-failing attempts. -/
def lastErrAux (process : Nat → String → Except PipeErr PyVal) :
    Nat → Option String → List LLMAttempt → Option String
  | _, le, [] => le
  | i, le, a :: rest =>
    lastErrAux process (i + 1)
      (match retryMsgG process i a with
       | some m => some m
       | none => le) rest

/-- The value of `response_content` (the validator's `raw_response`) after a
run of attempts: the content of the last 200 response whose envelope parsed. -/
def lastCntAux : Option String → List LLMAttempt → Option String
  | lc, [] => lc
  | _, .ok c :: rest => lastCntAux (some c) rest
  | lc, _ :: rest => lastCntAux lc rest

/-- The sleep trace over a run of retry-failing attempts starting at attempt
`i`: `2 ** attempt` seconds per retryable failure, a flat 1 second per
transport error, nothing on the last attempt. -/
def sleepsExp (M : Nat) : Nat → List LLMAttempt → List ℚ
  | _, [] => []
  | i, a :: rest =>
    (match a with
     | .transport _ => flatSleep M i
     | _ => backoffSleep M i) ++ sleepsExp M (i + 1) rest

/-- A provider behaviour on which every stage degrades but the enhancer's 200
response carries only whitespace, so `enhance_idea` raises
`ValueError("Empty response from API")` inside `run_pipeline`. -/
def env1 : PipelineEnv :=
  ⟨.ok "idea", List.replicate 3 (.ok "x"), fun _ _ => 0,
   List.replicate 3 (.ok "x"), .ok "   "⟩

/-- A provider behaviour whose enhancer output starts with a paragraph that
cleans to `1.` — the first stripped suggestion line then empties out and the
later priorities shift. -/
def env9 : PipelineEnv :=
  ⟨.ok "idea", List.replicate 3 (.ok "x"), fun _ _ => 0,
   List.replicate 3 (.ok "x"), .ok "1.1.\n\nfoo\n\nbar\n\nbaz"⟩

/-- The suggestions list produced by a successful pipeline run. -/
def runSuggestions (loads : String → Except String PyVal) (env : PipelineEnv) :
    List SuggestionItem :=
  match runPipeline loads env with
  | .ok r => r.suggestions
  | .error _ => []

/-- The two-section model output of the spec's dedup example. -/
def c8input : String :=
  "Focus on local sellers with same-day delivery\n\nFocus on local sellers with same day delivery and marketing"

/-- The first section after per-line cleanup (the `-` of `same-day` is removed
by `line.replace('-','')`). -/
def c8first : String := "Focus on local sellers with sameday delivery"

/-- The second section after per-line cleanup (unchanged). -/
def c8second : String := "Focus on local sellers with same day delivery and marketing"

/-- A model text on which the greedy regex span and the first balanced span
disagree: open brace, close brace, text, stray close brace. -/
def c3cexText : String := "\x7b\x7d x \x7d"

/-- A validator model output whose `validation_scores` carries the six
required keys (each 5) plus an extra numeric key `hype`. -/
def c2cexContent : String :=
  "\x7b\"validation_scores\": \x7b\"uniqueness\": 5, \"feasibility\": 5, \"market_trend\": 5, \"scalability\": 5, \"problem_relevance\": 5, \"user_adoption_potential\": 5, \"hype\": 100\x7d, \"overall_score\": 30\x7d"

/-- A well-formed validator model output (exactly the six keys, one of them
fractional). -/
def c2okContent : String :=
  "\x7b\"validation_scores\": \x7b\"uniqueness\": 7.5, \"feasibility\": 5, \"market_trend\": 6, \"scalability\": 8, \"problem_relevance\": 9, \"user_adoption_potential\": 4\x7d, \"overall_score\": 40\x7d"

/-- Identity-collaborator processor parameters for concrete evaluation. -/
def pId : ProcParams :=
  ⟨fun s => [s], fun _ => false, id, id, id, id, id, id⟩

/-- A one-file store for concrete evaluation. -/
def fsW : FS :=
  ⟨fun p => if p = "idea.txt" then some "Great Idea!!" else none⟩

/-! ### Helper lemmas -/

theorem boolEqOfIff {a b : Bool} (h : a = true ↔ b = true) : a = b := by
  cases a <;> cases b <;> simp_all

theorem pyRound_eq_floor_or (q : ℚ) : pyRound q = ⌊q⌋ ∨ pyRound q = ⌊q⌋ + 1 := by
  unfold pyRound
  split
  · exact Or.inl rfl
  · split
    · exact Or.inr rfl
    · split
      · exact Or.inl rfl
      · exact Or.inr rfl

theorem pyRound_half_le (q : ℚ) (h : pyRound q = ⌊q⌋ + 1) : 1/2 ≤ q - ⌊q⌋ := by
  by_contra hc
  push_neg at hc
  unfold pyRound at h
  rw [if_pos hc] at h
  omega

theorem le_pyRound (q : ℚ) (z : ℤ) (h : (z : ℚ) ≤ q) : z ≤ pyRound q := by
  have hf : z ≤ ⌊q⌋ := Int.le_floor.mpr h
  rcases pyRound_eq_floor_or q with h1 | h1 <;> omega

theorem pyRound_le (q : ℚ) (z : ℤ) (h : q ≤ (z : ℚ)) : pyRound q ≤ z := by
  have hf : ⌊q⌋ ≤ z := by
    have := Int.floor_le_floor h
    simpa using this
  rcases pyRound_eq_floor_or q with h1 | h1
  · omega
  · have hh := pyRound_half_le q h1
    have hq : (⌊q⌋ : ℚ) + 1/2 ≤ q := by linarith
    have hlt : (⌊q⌋ : ℚ) < (z : ℚ) := by linarith
    have : ⌊q⌋ < z := by exact_mod_cast hlt
    omega

theorem lookup_dictSet_self (es : List (String × PyVal)) (k : String) (v : PyVal) :
    List.lookup k (dictSet es k v) = some v := by
  induction es with
  | nil => simp [dictSet, List.lookup]
  | cons hd t ih =>
    obtain ⟨k', v'⟩ := hd
    by_cases hk : k' = k
    · subst hk
      simp [dictSet, List.lookup]
    · have hbeq : (k == k') = false := beq_eq_false_iff_ne.mpr (Ne.symm hk)
      simp [dictSet, hk, List.lookup, hbeq, ih]

theorem lookup_dictSet_ne (es : List (String × PyVal)) (k k' : String) (v : PyVal)
    (h : k ≠ k') : List.lookup k (dictSet es k' v) = List.lookup k es := by
  have hbeq : (k == k') = false := beq_eq_false_iff_ne.mpr h
  induction es with
  | nil => simp [dictSet, List.lookup, hbeq]
  | cons hd t ih =>
    obtain ⟨k0, v0⟩ := hd
    by_cases hk : k0 = k'
    · subst hk
      simp [dictSet, List.lookup, hbeq]
    · simp [dictSet, hk, List.lookup, ih]

theorem pyMax_eq (a b : ℚ) : pyMax a b = max a b := by
  unfold pyMax
  split
  · exact (max_eq_right (le_of_lt (by assumption))).symm
  · exact (max_eq_left (not_lt.mp (by assumption))).symm

theorem pyMin_eq (a b : ℚ) : pyMin a b = min a b := by
  unfold pyMin
  split
  · exact (min_eq_right (le_of_lt (by assumption))).symm
  · exact (min_eq_left (not_lt.mp (by assumption))).symm

theorem similarityAt_spec (i : Nat) (u : ℚ) (h1 : -5 ≤ u) (h2 : u ≤ 5) :
    similarityAt i u = max 1 (min 100 (pyRound (pyMax ((85 : ℚ) - 10 * i) 25 + u))) ∧
    1 ≤ similarityAt i u ∧ similarityAt i u ≤ 100 := by
  have hbl : (25 : ℚ) ≤ pyMax ((85 : ℚ) - 10 * i) 25 := by
    rw [pyMax_eq]; exact le_max_right _ _
  have hbh : pyMax ((85 : ℚ) - 10 * i) 25 ≤ 85 := by
    rw [pyMax_eq]
    apply max_le
    · have : (0 : ℚ) ≤ 10 * i := by positivity
      linarith
    · norm_num
  have h20 : (20 : ℚ) ≤ pyMax ((85 : ℚ) - 10 * i) 25 + u := by linarith
  have h90 : pyMax ((85 : ℚ) - 10 * i) 25 + u ≤ 90 := by linarith
  have hmin : pyMin (100 : ℚ) (pyMax ((85 : ℚ) - 10 * i) 25 + u) =
      pyMax ((85 : ℚ) - 10 * i) 25 + u := by
    rw [pyMin_eq]; exact min_eq_right (by linarith)
  have hmax : pyMax (1 : ℚ) (pyMax ((85 : ℚ) - 10 * i) 25 + u) =
      pyMax ((85 : ℚ) - 10 * i) 25 + u := by
    rw [pyMax_eq 1]; exact max_eq_right (by linarith)
  have hsim : similarityAt i u = pyRound (pyMax ((85 : ℚ) - 10 * i) 25 + u) := by
    unfold similarityAt
    rw [hmin, hmax]
  have hrl : (20 : ℤ) ≤ pyRound (pyMax ((85 : ℚ) - 10 * i) 25 + u) := by
    apply le_pyRound
    exact_mod_cast h20
  have hrh : pyRound (pyMax ((85 : ℚ) - 10 * i) 25 + u) ≤ (90 : ℤ) := by
    apply pyRound_le
    exact_mod_cast h90
  have h100 : pyRound (pyMax ((85 : ℚ) - 10 * i) 25 + u) ≤ (100 : ℤ) := by omega
  have h1z : (1 : ℤ) ≤ pyRound (pyMax ((85 : ℚ) - 10 * i) 25 + u) := by omega
  refine ⟨?_, ?_, ?_⟩
  · rw [hsim, min_eq_right h100, max_eq_right h1z]
  · rw [hsim]; omega
  · rw [hsim]; omega

theorem enrich_lookup_similarity (jit : Nat → ℚ) :
    ∀ (ideas : List PyVal) (i0 : Nat) (out : List PyVal),
      enrichIdeas jit i0 ideas = .ok out →
      ∀ j item, out.get? j = some item →
        ∃ es, item = .dict es ∧
          List.lookup "similarity" es =
            some (.num ((similarityAt (i0 + j) (jit (i0 + j)) : ℤ) : ℚ)) := by
  intro ideas
  induction ideas with
  | nil =>
    intro i0 out h j item hj
    simp only [enrichIdeas] at h
    cases h
    simp at hj
  | cons idea rest ih =>
    intro i0 out h j item hj
    cases idea with
    | dict es =>
      simp only [enrichIdeas] at h
      cases hcat : getCategoryE (dictGetD es "idea_description" .pnone) with
      | error e => rw [hcat] at h; cases h
      | ok cat =>
        rw [hcat] at h
        cases hrec : enrichIdeas jit (i0 + 1) rest with
        | error e => rw [hrec] at h; cases h
        | ok tl =>
          rw [hrec] at h
          cases h
          cases j with
          | zero =>
            simp only [List.get?] at hj
            cases hj
            refine ⟨_, rfl, ?_⟩
            rw [lookup_dictSet_ne _ _ _ _ (by decide), lookup_dictSet_self]
            simp
          | succ j' =>
            simp only [List.get?] at hj
            have := ih (i0 + 1) tl hrec j' item hj
            simpa [Nat.add_assoc, Nat.add_comm 1 j', Nat.add_left_comm] using this
    | pnone => simp [enrichIdeas] at h
    | pbool b => simp [enrichIdeas] at h
    | num q => simp [enrichIdeas] at h
    | str s => simp [enrichIdeas] at h
    | list xs => simp [enrichIdeas] at h

/-- C6: For every surviving competitor entry at list index `i` and every
jitter value `u` from `uniform(-5, 5)`, the similarity emitted by
`ScraperAgent.query_mistral` equals
`clamp(1, 100, round(max(85 - 10*i, 25) + u))`, and every emitted similarity
lies in `[1, 100]`; the enrichment writes exactly `similarityAt i u` into the
`similarity` key of the entry at index `i`. -/
theorem c6_similarity_formula (jit : Nat → ℚ)
    (hjit : ∀ n, -5 ≤ jit n ∧ jit n ≤ 5) :
    (∀ i : Nat,
      similarityAt i (jit i) =
        max 1 (min 100 (pyRound (pyMax ((85 : ℚ) - 10 * i) 25 + jit i))) ∧
      1 ≤ similarityAt i (jit i) ∧ similarityAt i (jit i) ≤ 100) ∧
    (∀ ideas out, enrichIdeas jit 0 ideas = .ok out →
      ∀ j item, out.get? j = some item →
        ∃ es, item = .dict es ∧
          List.lookup "similarity" es =
            some (.num ((similarityAt j (jit j) : ℤ) : ℚ))) := by
  constructor
  · intro i
    exact similarityAt_spec i (jit i) (hjit i).1 (hjit i).2
  · intro ideas out h j item hj
    have := enrich_lookup_similarity jit ideas 0 out h j item hj
    simpa using this

theorem c6_witness :
    (∀ n : Nat, -5 ≤ (0 : ℚ) ∧ (0 : ℚ) ≤ 5) ∧
    similarityAt 2 ((fun _ => (0 : ℚ)) 2) =
      max 1 (min 100 (pyRound (pyMax ((85 : ℚ) - 10 * 2) 25 + (fun _ => (0 : ℚ)) 2))) ∧
    1 ≤ similarityAt 2 ((fun _ => (0 : ℚ)) 2) ∧
    similarityAt 2 ((fun _ => (0 : ℚ)) 2) ≤ 100 ∧
    similarityAt 2 0 = 65 := by
  refine ⟨fun _ => by norm_num, ?_⟩
  have h := (c6_similarity_formula (fun _ => 0) (fun _ => by norm_num)).1 2
  exact ⟨h.1, h.2.1, h.2.2, by with_unfolding_all rfl⟩

/-! ### C7 / C8: EnhancerAgent deduplication -/

theorem isDupAgainst_mem_congr (x : String) {s1 s2 : List String}
    (h : ∀ y, y ∈ s1 ↔ y ∈ s2) : isDupAgainst x s1 = isDupAgainst x s2 := by
  apply boolEqOfIff
  unfold isDupAgainst
  simp only [List.any_eq_true]
  constructor
  · rintro ⟨y, hy, hp⟩
    exact ⟨y, (h y).1 hy, hp⟩
  · rintro ⟨y, hy, hp⟩
    exact ⟨y, (h y).2 hy, hp⟩

theorem dedupAux_eq_specDedup :
    ∀ (l seen uniq : List String), (∀ y, y ∈ seen ↔ y ∈ uniq) →
      dedupAux seen uniq l = specDedup uniq l := by
  intro l
  induction l with
  | nil => intro seen uniq _; rfl
  | cons x rest ih =>
    intro seen uniq h
    unfold dedupAux specDedup
    rw [isDupAgainst_mem_congr x h]
    by_cases hd : isDupAgainst x uniq
    · rw [hd]
      simp only [if_true]
      exact ih seen uniq h
    · rw [Bool.not_eq_true] at hd
      rw [hd]
      simp only [Bool.false_eq_true, if_false]
      apply ih
      intro y
      simp only [List.mem_cons, List.mem_append, List.mem_singleton, h y]
      tauto

theorem specDedup_extends :
    ∀ (l kept : List String), ∃ l', specDedup kept l = kept ++ l' ∧ l'.Sublist l := by
  intro l
  induction l with
  | nil => intro kept; exact ⟨[], by simp [specDedup]⟩
  | cons x rest ih =>
    intro kept
    unfold specDedup
    by_cases hd : isDupAgainst x kept
    · rw [hd]
      simp only [if_true]
      obtain ⟨l', h1, h2⟩ := ih kept
      exact ⟨l', h1, h2.cons x⟩
    · rw [Bool.not_eq_true] at hd
      rw [hd]
      simp only [Bool.false_eq_true, if_false]
      obtain ⟨l', h1, h2⟩ := ih (kept ++ [x])
      refine ⟨x :: l', ?_, h2.cons₂ x⟩
      rw [h1, List.append_assoc]
      rfl

/-- C7: the deduplication of `enhance_idea` keeps exactly what the spec's
rule describes — a cleaned section is dropped iff it is a case-insensitive
substring of an already-kept section, or conversely, or its word-set Jaccard
similarity with an already-kept section exceeds 0.70 (`specDedup`, which
tracks only the kept list) — and the kept sections are a subsequence of the
input, i.e. in first-seen order with no re-ordering. -/
theorem c7_dedup_rule (sections : List String) :
    dedupSource sections = specDedup [] sections ∧
    (dedupSource sections).Sublist sections := by
  have h : dedupSource sections = specDedup [] sections :=
    dedupAux_eq_specDedup sections [] [] (fun y => Iff.rfl)
  refine ⟨h, ?_⟩
  rw [h]
  obtain ⟨l', h1, h2⟩ := specDedup_extends sections []
  rw [h1]
  simpa using h2

/-- C8 counterexample: on the spec's own two-section example the second
section is *kept*, not dropped — `enhance_idea`'s post-processing returns
both sections. -/
theorem c8_counterexample :
    enhancePost c8input = c8first ++ "\n\n" ++ c8second ∧
    enhancePost c8input ≠ c8first := by
  constructor
  · with_unfolding_all rfl
  · intro h
    have h2 : enhancePost c8input = c8first ++ "\n\n" ++ c8second := by
      with_unfolding_all rfl
    rw [h] at h2
    exact absurd (congrArg String.length h2) (by decide)

/-- C8 (amended): on the two sections of the spec's example, per-line cleanup
removes the hyphen of `same-day`; the word-set Jaccard similarity of the two
cleaned sections is 6/11 ≈ 0.545, which does not exceed 0.7, neither cleaned
section is a case-insensitive substring of the other, so the second section
is kept and the post-processing returns both sections. -/
theorem c8_amended :
    enhancePost c8input = c8first ++ "\n\n" ++ c8second ∧
    simScore c8first c8second = 6 / 11 ∧
    ¬ ((6 : ℚ) / 11 > 7 / 10) ∧
    strIn c8first.toLower c8second.toLower = false ∧
    strIn c8second.toLower c8first.toLower = false := by
  refine ⟨by with_unfolding_all rfl, by with_unfolding_all rfl, by norm_num, ?_, ?_⟩
  · with_unfolding_all rfl
  · with_unfolding_all rfl

/-! ### C9: suggestion priorities -/

/-- C9 counterexample: on `env9`, `run_pipeline` succeeds and produces the
suggestion list `[foo, bar, baz]` — but the item at output position 1 has
priority `"medium"` (the enhancer's first paragraph cleans to `1.`, the
stripped line empties out, and the position-based priorities shift), while
the claim requires priority `"high"` at positions 0 and 1. -/
theorem c9_counterexample :
    runSuggestions miniLoads env9 =
      [⟨"Enhancement", "foo", "high"⟩, ⟨"Enhancement", "bar", "medium"⟩,
       ⟨"Enhancement", "baz", "medium"⟩] ∧
    ((runSuggestions miniLoads env9).get? 1).map SuggestionItem.priority = some "medium" := by
  constructor
  · with_unfolding_all rfl
  · with_unfolding_all rfl

theorem buildSuggestions_get :
    ∀ (l : List String) (i0 : Nat), (∀ s ∈ l, s ≠ "") →
      ∀ j, (buildSuggestions i0 l).get? j =
        (l.get? j).map (fun s =>
          (⟨"Enhancement", s,
            if i0 + j < 2 then "high" else if i0 + j < 4 then "medium" else "low"⟩ :
            SuggestionItem)) := by
  intro l
  induction l with
  | nil => intro i0 _ j; simp [buildSuggestions]
  | cons s rest ih =>
    intro i0 h j
    have hs : s ≠ "" := h s (List.mem_cons_self s rest)
    have hrest : ∀ x ∈ rest, x ≠ "" := fun x hx => h x (List.mem_cons_of_mem s hx)
    unfold buildSuggestions
    rw [if_neg hs]
    cases j with
    | zero => simp
    | succ j' =>
      simp only [List.get?]
      have := ih (i0 + 1) hrest j'
      rw [this]
      have harith : i0 + 1 + j' = i0 + (j' + 1) := by omega
      rw [harith]

/-- C9 (amended): the priority of a suggestion is determined by the item's
index in the intermediate list of stripped non-blank lines (which contains
entries emptied by numbering removal); these emptied entries are skipped but
still consume indices.  Whenever no stripped entry is empty — the case the
claim describes — the index equals the item's position in the produced list,
and positions 0,1 get `"high"`, 2,3 `"medium"`, all later ones `"low"`,
independent of the text. -/
theorem c9_priority_by_position (text : String)
    (h : ∀ s ∈ stripNumberedLines 0 (text.splitOn "\n"), s ≠ "") :
    ∀ i item, (structureSuggestions text).get? i = some item →
      item.category = "Enhancement" ∧
      item.priority = (if i < 2 then "high" else if i < 4 then "medium" else "low") := by
  intro i item hit
  unfold structureSuggestions at hit
  rw [buildSuggestions_get _ 0 h i] at hit
  cases hget : (stripNumberedLines 0 (text.splitOn "\n")).get? i with
  | none => rw [hget] at hit; cases hit
  | some s =>
    rw [hget] at hit
    simp only [Option.map, Option.some.injEq] at hit
    subst hit
    simp

theorem c9_witness :
    (∀ s ∈ stripNumberedLines 0 (("alpha\nbeta").splitOn "\n"), s ≠ "") ∧
    (structureSuggestions "alpha\nbeta").get? 0 =
      some ⟨"Enhancement", "alpha", "high"⟩ ∧
    ∀ i item, (structureSuggestions "alpha\nbeta").get? i = some item →
      item.category = "Enhancement" ∧
      item.priority = (if i < 2 then "high" else if i < 4 then "medium" else "low") := by
  refine ⟨?_, by with_unfolding_all rfl, ?_⟩
  · with_unfolding_all decide
  · apply c9_priority_by_position
    with_unfolding_all decide

/-! ### C10: ProcessorAgent overwrites the input file in place -/

/-- C10: for every supported path holding content `c`, `process_file`
succeeds, returns the normalized text, and the resulting store holds exactly
the normalized text (in the format of the path) at that path, every other
path unchanged — the raw document content is no longer stored. -/
theorem c10_overwrite_in_place (P : ProcParams) (fs : FS) (path c : String)
    (hsupp : supportedExt path = true) (hfile : fs.files path = some c) :
    processFile P fs path =
      .ok (preprocessText P (decodeFor P path c),
        updateFS fs path (encodeFor P path (preprocessText P (decodeFor P path c)))) ∧
    (updateFS fs path (encodeFor P path (preprocessText P (decodeFor P path c)))).files path =
      some (encodeFor P path (preprocessText P (decodeFor P path c))) ∧
    (∀ q, q ≠ path →
      (updateFS fs path (encodeFor P path (preprocessText P (decodeFor P path c)))).files q =
        fs.files q) := by
  refine ⟨?_, by simp [updateFS], fun q hq => by simp [updateFS, hq]⟩
  unfold supportedExt at hsupp
  by_cases h1 : path.endsWith ".txt"
  · simp [processFile, readRaw, overwriteFile, decodeFor, encodeFor, h1, hfile]
  · by_cases h2 : path.endsWith ".docx"
    · simp [processFile, readRaw, overwriteFile, decodeFor, encodeFor, h1, h2, hfile]
    · have h3 : path.endsWith ".odt" = true := by
        simp [h1, h2] at hsupp
        exact hsupp
      simp [processFile, readRaw, overwriteFile, decodeFor, encodeFor, h1, h2, h3, hfile]

theorem c10_witness :
    supportedExt "idea.txt" = true ∧
    fsW.files "idea.txt" = some "Great Idea!!" ∧
    preprocessText pId "Great Idea!!" = "great idea" ∧
    (processFile pId fsW "idea.txt" =
       .ok (preprocessText pId (decodeFor pId "idea.txt" "Great Idea!!"),
         updateFS fsW "idea.txt"
           (encodeFor pId "idea.txt" (preprocessText pId (decodeFor pId "idea.txt" "Great Idea!!")))) ∧
     (updateFS fsW "idea.txt"
         (encodeFor pId "idea.txt" (preprocessText pId (decodeFor pId "idea.txt" "Great Idea!!")))).files
         "idea.txt" =
       some (encodeFor pId "idea.txt" (preprocessText pId (decodeFor pId "idea.txt" "Great Idea!!"))) ∧
     (∀ q, q ≠ "idea.txt" →
       (updateFS fsW "idea.txt"
           (encodeFor pId "idea.txt" (preprocessText pId (decodeFor pId "idea.txt" "Great Idea!!")))).files
           q = fsW.files q)) :=
  ⟨by with_unfolding_all rfl, by with_unfolding_all rfl, by with_unfolding_all rfl,
   c10_overwrite_in_place pId fsW "idea.txt" "Great Idea!!" (by with_unfolding_all rfl)
     (by with_unfolding_all rfl)⟩

/-! ### C3: JSON extraction and repair -/

/-- C3 counterexample: on `\x7b\x7d x \x7d` the direct parse fails, the greedy
regex span is the whole `\x7b\x7d x \x7d` (first open brace to *last* close
brace) and fails to parse, so the routine fails — while the spec's
first-balanced-span routine extracts `\x7b\x7d` and succeeds.  The two span
extractors provably differ here. -/
theorem c3_counterexample :
    extractRepair miniLoads c3cexText = .error ⟨true, "Extra data"⟩ ∧
    specExtractRepair miniLoads c3cexText = .ok (.dict []) ∧
    greedySpan c3cexText ≠ balancedSpan c3cexText := by
  refine ⟨by with_unfolding_all rfl, by with_unfolding_all rfl, ?_⟩
  with_unfolding_all decide

/-- C3 (amended): the shared routine first attempts a direct parse of the
stripped content; on failure it parses the span running from the first open
brace to the *last* close brace of the text (the greedy regex span, not the
first balanced span), succeeds exactly when that parse succeeds, raises the
span's JSONDecodeError when the span fails to parse, and reports
`No valid JSON found in response` when there is no span; it agrees with the
spec's balanced-span routine whenever the two spans coincide. -/
theorem c3_extract_repair (loads : String → Except String PyVal) (c : String) :
    (∀ v, loads c.trim = .ok v → extractRepair loads c = .ok v) ∧
    (∀ e, loads c.trim = .error e →
      ((∀ v, extractRepair loads c = .ok v ↔
          ∃ sp, greedySpan c = some sp ∧ loads sp = .ok v) ∧
       (greedySpan c = none →
          extractRepair loads c = .error ⟨false, "No valid JSON found in response"⟩) ∧
       (∀ sp msg, greedySpan c = some sp → loads sp = .error msg →
          extractRepair loads c = .error ⟨true, msg⟩))) ∧
    (balancedSpan c = greedySpan c →
      extractRepair loads c = specExtractRepair loads c) := by
  refine ⟨?_, ?_, ?_⟩
  · intro v hv
    unfold extractRepair
    rw [hv]
  · intro e he
    refine ⟨?_, ?_, ?_⟩
    · intro v
      unfold extractRepair
      rw [he]
      cases hsp : greedySpan c with
      | none => simp
      | some sp =>
        cases hl : loads sp with
        | ok w => simp [hl, eq_comm]
        | error m => simp [hl]
    · intro hnone
      unfold extractRepair
      rw [he, hnone]
    · intro sp msg hsp hl
      unfold extractRepair
      rw [he, hsp]
      simp [hl]
  · intro hbal
    unfold extractRepair specExtractRepair
    rw [hbal]

theorem c3_witness :
    miniLoads (("x \x7b\x7d").trim) = .error "Expecting value" ∧
    extractRepair miniLoads "x \x7b\x7d" = .ok (.dict []) ∧
    specExtractRepair miniLoads "x \x7b\x7d" = .ok (.dict []) := by
  have hdirect : miniLoads (("x \x7b\x7d").trim) = .error "Expecting value" := by
    with_unfolding_all rfl
  have hcode : extractRepair miniLoads "x \x7b\x7d" = .ok (.dict []) :=
    (((c3_extract_repair miniLoads "x \x7b\x7d").2.1 "Expecting value" hdirect).1 (.dict [])).mpr
      ⟨"\x7b\x7d", by with_unfolding_all rfl, by with_unfolding_all rfl⟩
  refine ⟨hdirect, hcode, ?_⟩
  rw [← (c3_extract_repair miniLoads "x \x7b\x7d").2.2 (by with_unfolding_all rfl)]
  exact hcode

/-! ### C4 / C5: retry policy of the shared loop -/

theorem runLoop_calls_le (process : Nat → String → Except PipeErr PyVal)
    (mkErr : Option String → Option String → PyVal) (M : Nat) :
    ∀ (l : List LLMAttempt) (i : Nat) (le lc : Option String),
      (runLoop process mkErr M l i le lc).calls ≤ l.length := by
  intro l
  induction l with
  | nil => intro i le lc; simp [runLoop]
  | cons a rest ih =>
    intro i le lc
    cases a with
    | ok c =>
      cases hp : process i c with
      | ok v => simp [runLoop, hp]
      | error e =>
        simp only [runLoop, hp, List.length_cons]
        have := ih (i + 1) (some e.msg) (some c)
        omega
    | badEnvelope j m =>
      simp only [runLoop, List.length_cons]
      have := ih (i + 1) (some m) lc
      omega
    | rateLimited b =>
      simp only [runLoop, List.length_cons]
      have := ih (i + 1) (some "Rate limit exceeded") lc
      omega
    | httpError s b => simp [runLoop]
    | transport m =>
      simp only [runLoop, List.length_cons]
      have := ih (i + 1) (some m) lc
      omega

theorem runLoop_exhaust (process : Nat → String → Except PipeErr PyVal)
    (mkErr : Option String → Option String → PyVal) (M : Nat) :
    ∀ (l : List LLMAttempt) (i : Nat) (le lc : Option String),
      (∀ j, (hj : j < l.length) → (retryMsgG process (i + j) (l.get ⟨j, hj⟩)).isSome) →
      runLoop process mkErr M l i le lc =
        ⟨mkErr (lastErrAux process i le l) (lastCntAux lc l), sleepsExp M i l, l.length⟩ := by
  intro l
  induction l with
  | nil => intro i le lc _; rfl
  | cons a rest ih =>
    intro i le lc h
    have h0 : (retryMsgG process i a).isSome := by
      have := h 0 (by simp)
      simpa using this
    have hrest : ∀ j, (hj : j < rest.length) →
        (retryMsgG process ((i + 1) + j) (rest.get ⟨j, hj⟩)).isSome := by
      intro j hj
      have harith : i + (j + 1) = i + 1 + j := by omega
      have := h (j + 1) (by simpa using Nat.succ_lt_succ hj)
      rw [harith] at this
      simpa using this
    cases a with
    | ok c =>
      cases hp : process i c with
      | ok v =>
        exfalso
        simp [retryMsgG, hp] at h0
      | error e =>
        simp only [runLoop, hp]
        rw [ih (i + 1) (some e.msg) (some c) hrest]
        simp [lastErrAux, lastCntAux, sleepsExp, retryMsgG, hp]
    | badEnvelope j m =>
      simp only [runLoop]
      rw [ih (i + 1) (some m) lc hrest]
      simp [lastErrAux, lastCntAux, sleepsExp, retryMsgG]
    | rateLimited b =>
      simp only [runLoop]
      rw [ih (i + 1) (some "Rate limit exceeded") lc hrest]
      simp [lastErrAux, lastCntAux, sleepsExp, retryMsgG]
    | httpError s b =>
      exfalso
      simp [retryMsgG] at h0
    | transport m =>
      simp only [runLoop]
      rw [ih (i + 1) (some m) lc hrest]
      simp [lastErrAux, lastCntAux, sleepsExp, retryMsgG]

theorem runLoop_break (process : Nat → String → Except PipeErr PyVal)
    (mkErr : Option String → Option String → PyVal) (M : Nat) :
    ∀ (l : List LLMAttempt) (k : Nat) (i : Nat) (le lc : Option String)
      (s : Nat) (b : String),
      l.get? k = some (.httpError s b) →
      (∀ j, j < k → (hjl : j < l.length) →
        (retryMsgG process (i + j) (l.get ⟨j, hjl⟩)).isSome) →
      ∃ lc' sl, runLoop process mkErr M l i le lc =
        ⟨mkErr (some ("HTTP " ++ toString s ++ ": " ++ b)) lc', sl, k + 1⟩ := by
  intro l
  induction l with
  | nil => intro k i le lc s b hk _; simp at hk
  | cons a rest ih =>
    intro k i le lc s b hk hprev
    cases k with
    | zero =>
      simp only [List.get?] at hk
      cases hk
      exact ⟨lc, [], rfl⟩
    | succ k' =>
      simp only [List.get?] at hk
      have h0 : (retryMsgG process i a).isSome := by
        have := hprev 0 (by omega) (by simp)
        simpa using this
      have hprev' : ∀ j, j < k' → (hjl : j < rest.length) →
          (retryMsgG process ((i + 1) + j) (rest.get ⟨j, hjl⟩)).isSome := by
        intro j hj hjl
        have harith : i + (j + 1) = i + 1 + j := by omega
        have := hprev (j + 1) (by omega) (by simpa using Nat.succ_lt_succ hjl)
        rw [harith] at this
        simpa using this
      cases a with
      | ok c =>
        cases hp : process i c with
        | ok v =>
          exfalso
          simp [retryMsgG, hp] at h0
        | error e =>
          obtain ⟨lc', sl, hrec⟩ := ih k' (i + 1) (some e.msg) (some c) s b hk hprev'
          refine ⟨lc', backoffSleep M i ++ sl, ?_⟩
          simp only [runLoop, hp]
          rw [hrec]
      | badEnvelope j m =>
        obtain ⟨lc', sl, hrec⟩ := ih k' (i + 1) (some m) lc s b hk hprev'
        refine ⟨lc', backoffSleep M i ++ sl, ?_⟩
        simp only [runLoop]
        rw [hrec]
      | rateLimited b0 =>
        obtain ⟨lc', sl, hrec⟩ := ih k' (i + 1) (some "Rate limit exceeded") lc s b hk hprev'
        refine ⟨lc', backoffSleep M i ++ sl, ?_⟩
        simp only [runLoop]
        rw [hrec]
      | httpError s0 b0 =>
        exfalso
        simp [retryMsgG] at h0
      | transport m =>
        obtain ⟨lc', sl, hrec⟩ := ih k' (i + 1) (some m) lc s b hk hprev'
        refine ⟨lc', flatSleep M i ++ sl, ?_⟩
        simp only [runLoop]
        rw [hrec]

/-- C4: for every sequence of retry-triggering outcomes (failing 200 bodies —
empty, JSON-repair failure, zero valid entries —, HTTP 429, transport
exceptions), `ScraperAgent.query_mistral` makes at most `max_retries` calls
(here `attempts.length`); a run of only such outcomes makes exactly one call
per attempt, sleeps `2 ** attempt` seconds after each retryable failure and a
flat 1 second after each transport exception (never after the last attempt),
and returns the structured value with an empty `similar_ideas` list and an
`error` field carrying the last observed error message, rather than
raising. -/
theorem c4_scraper_retry_policy (loads : String → Except String PyVal)
    (jit : Nat → Nat → ℚ) (attempts : List LLMAttempt)
    (h : ∀ j, (hj : j < attempts.length) →
      (retryMsgS loads jit j (attempts.get ⟨j, hj⟩)).isSome) :
    (∀ atts : List LLMAttempt, (scraperRun loads jit atts).calls ≤ atts.length) ∧
    scraperRun loads jit attempts =
      ⟨scraperErrVal attempts.length
         (lastErrAux (fun n c => process200s loads (jit n) c) 0 none attempts),
       sleepsExp attempts.length 0 attempts,
       attempts.length⟩ := by
  constructor
  · intro atts
    exact runLoop_calls_le _ _ _ atts 0 none none
  · have hh : ∀ j, (hj : j < attempts.length) →
        (retryMsgG (fun n c => process200s loads (jit n) c) (0 + j)
          (attempts.get ⟨j, hj⟩)).isSome := by
      intro j hj
      have := h j hj
      simpa [retryMsgS] using this
    exact runLoop_exhaust _ _ _ attempts 0 none none hh

theorem c4_witness :
    (∀ j, (hj : j < ([LLMAttempt.ok "   ", .rateLimited "", .transport "connection reset"] :
        List LLMAttempt).length) →
      (retryMsgS miniLoads (fun _ _ => 0) j
        (([LLMAttempt.ok "   ", .rateLimited "", .transport "connection reset"] :
          List LLMAttempt).get ⟨j, hj⟩)).isSome) ∧
    scraperRun miniLoads (fun _ _ => 0)
      [.ok "   ", .rateLimited "", .transport "connection reset"] =
      ⟨scraperErrVal 3 (some "connection reset"), [1, 2], 3⟩ := by
  have hh : ∀ j, (hj : j < ([LLMAttempt.ok "   ", .rateLimited "", .transport "connection reset"] :
      List LLMAttempt).length) →
      (retryMsgS miniLoads (fun _ _ => 0) j
        (([LLMAttempt.ok "   ", .rateLimited "", .transport "connection reset"] :
          List LLMAttempt).get ⟨j, hj⟩)).isSome := by
    intro j hj
    have hj3 : j < 3 := by simpa using hj
    interval_cases j
    · with_unfolding_all rfl
    · with_unfolding_all rfl
    · with_unfolding_all rfl
  refine ⟨hh, ?_⟩
  rw [(c4_scraper_retry_policy miniLoads (fun _ _ => 0) _ hh).2]
  with_unfolding_all rfl

/-- C5: when the attempt at index `k` returns an HTTP status other than 200
and 429 (all earlier attempts having been retry-triggering), both
`ScraperAgent.query_mistral` and `ValidatorAgent.query_mistral` make exactly
`k + 1` calls — the terminal response triggers no further attempt — and
record `HTTP status: body` as the last error of the returned structured
value. -/
theorem c5_non200_non429_terminal (loads : String → Except String PyVal)
    (jit : Nat → Nat → ℚ) (sAtt vAtt : List LLMAttempt) (k k' s s' : Nat) (b b' : String)
    (hs : sAtt.get? k = some (.httpError s b)) (hs200 : s ≠ 200) (hs429 : s ≠ 429)
    (hv : vAtt.get? k' = some (.httpError s' b')) (hv200 : s' ≠ 200) (hv429 : s' ≠ 429)
    (hpre : ∀ j, j < k → (hjl : j < sAtt.length) →
      (retryMsgS loads jit j (sAtt.get ⟨j, hjl⟩)).isSome)
    (hpre' : ∀ j, j < k' → (hjl : j < vAtt.length) →
      (retryMsgV loads j (vAtt.get ⟨j, hjl⟩)).isSome) :
    ((scraperRun loads jit sAtt).calls = k + 1 ∧
     dictGet? (scraperRun loads jit sAtt).result "error" =
       some (.str ("Failed to get valid response after " ++ toString sAtt.length ++
         " attempts. Last error: " ++ ("HTTP " ++ toString s ++ ": " ++ b)))) ∧
    ((validatorRun loads vAtt).calls = k' + 1 ∧
     dictGet? (validatorRun loads vAtt).result "error" =
       some (.str ("Failed to get valid validation scores after " ++ toString vAtt.length ++
         " attempts. Last error: " ++ ("HTTP " ++ toString s' ++ ": " ++ b')))) := by
  constructor
  · have hpre2 : ∀ j, j < k → (hjl : j < sAtt.length) →
        (retryMsgG (fun n c => process200s loads (jit n) c) (0 + j)
          (sAtt.get ⟨j, hjl⟩)).isSome := by
      intro j hj hjl
      have := hpre j hj hjl
      simpa [retryMsgS] using this
    obtain ⟨lc', sl, hrun⟩ := runLoop_break (fun n c => process200s loads (jit n) c)
      (fun le _ => scraperErrVal sAtt.length le) sAtt.length sAtt k 0 none none s b hs hpre2
    have hsr : scraperRun loads jit sAtt =
        ⟨scraperErrVal sAtt.length (some ("HTTP " ++ toString s ++ ": " ++ b)), sl, k + 1⟩ :=
      hrun
    rw [hsr]
    exact ⟨rfl, by with_unfolding_all rfl⟩
  · have hpre2 : ∀ j, j < k' → (hjl : j < vAtt.length) →
        (retryMsgG (fun _ c => process200v loads c) (0 + j)
          (vAtt.get ⟨j, hjl⟩)).isSome := by
      intro j hj hjl
      have := hpre' j hj hjl
      simpa [retryMsgV] using this
    obtain ⟨lc', sl, hrun⟩ := runLoop_break (fun _ c => process200v loads c)
      (validatorErrVal vAtt.length) vAtt.length vAtt k' 0 none none s' b' hv hpre2
    have hvr : validatorRun loads vAtt =
        ⟨validatorErrVal vAtt.length (some ("HTTP " ++ toString s' ++ ": " ++ b')) lc',
         sl, k' + 1⟩ :=
      hrun
    rw [hvr]
    exact ⟨rfl, by with_unfolding_all rfl⟩

theorem c5_witness :
    (([LLMAttempt.httpError 500 "boom", .ok "x", .ok "x"] : List LLMAttempt).get? 0 =
      some (.httpError 500 "boom")) ∧
    (([LLMAttempt.httpError 503 "down", .ok "x", .ok "x"] : List LLMAttempt).get? 0 =
      some (.httpError 503 "down")) ∧
    ((scraperRun miniLoads (fun _ _ => 0) [.httpError 500 "boom", .ok "x", .ok "x"]).calls = 1 ∧
     dictGet? (scraperRun miniLoads (fun _ _ => 0)
         [.httpError 500 "boom", .ok "x", .ok "x"]).result "error" =
       some (.str ("Failed to get valid response after " ++ toString ([LLMAttempt.httpError 500 "boom", .ok "x", .ok "x"] : List LLMAttempt).length ++
         " attempts. Last error: " ++ ("HTTP " ++ toString 500 ++ ": " ++ "boom")))) ∧
    ((validatorRun miniLoads [.httpError 503 "down", .ok "x", .ok "x"]).calls = 1 ∧
     dictGet? (validatorRun miniLoads [.httpError 503 "down", .ok "x", .ok "x"]).result "error" =
       some (.str ("Failed to get valid validation scores after " ++ toString ([LLMAttempt.httpError 503 "down", .ok "x", .ok "x"] : List LLMAttempt).length ++
         " attempts. Last error: " ++ ("HTTP " ++ toString 503 ++ ": " ++ "down")))) := by
  have h := c5_non200_non429_terminal miniLoads (fun _ _ => 0)
    [.httpError 500 "boom", .ok "x", .ok "x"] [.httpError 503 "down", .ok "x", .ok "x"]
    0 0 500 503 "boom" "down" rfl (by omega) (by omega) rfl (by omega) (by omega)
    (fun j hj _ => absurd hj (by omega)) (fun j hj _ => absurd hj (by omega))
  exact ⟨rfl, rfl, h.1, h.2⟩

/-! ### C2: validator score rounding and overall score -/

theorem roundScores_lookup :
    ∀ (vs vs' : List (String × PyVal)) (k : String) (sv : PyVal),
      roundScores vs = .ok vs' → List.lookup k vs = some sv →
      ∃ q, pyFloatE sv = .ok q ∧
        List.lookup k vs' = some (.num ((pyRound q : ℤ) : ℚ)) := by
  intro vs
  induction vs with
  | nil => intro vs' k sv _ hk; simp [List.lookup] at hk
  | cons e rest ih =>
    intro vs' k sv h hk
    obtain ⟨k0, sv0⟩ := e
    simp only [roundScores] at h
    cases hf : pyFloatE sv0 with
    | error e0 => rw [hf] at h; cases h
    | ok q0 =>
      rw [hf] at h
      cases hr : roundScores rest with
      | error e0 => rw [hr] at h; cases h
      | ok tl =>
        rw [hr] at h
        cases h
        by_cases hkk : k = k0
        · subst hkk
          have hbeq : (k == k) = true := beq_self_eq_true k
          simp only [List.lookup, hbeq] at hk ⊢
          cases hk
          exact ⟨q0, hf, rfl⟩
        · have hbeq : (k == k0) = false := beq_eq_false_iff_ne.mpr hkk
          simp only [List.lookup, hbeq] at hk ⊢
          exact ih tl k sv hr hk

theorem validateScores_key (es vs : List (String × PyVal))
    (hval : validateScores (.dict es) = true)
    (hvs : List.lookup "validation_scores" es = some (.dict vs)) :
    ∀ k ∈ sixKeys, ∃ sv q, List.lookup k vs = some sv ∧ pyFloatE sv = .ok q ∧
      0 ≤ q ∧ q ≤ 10 := by
  intro k hk
  simp only [validateScores] at hval
  simp only [hvs] at hval
  have hall := List.all_eq_true.mp hval k hk
  cases hsv : List.lookup k vs with
  | none =>
    simp only [hsv] at hall
    exact Bool.noConfusion hall
  | some sv =>
    simp only [hsv] at hall
    cases hq : pyFloatE sv with
    | error e =>
      simp only [hq] at hall
      exact Bool.noConfusion hall
    | ok q =>
      simp only [hq] at hall
      have hb := of_decide_eq_true hall
      exact ⟨sv, q, rfl, hq, hb.1, hb.2⟩

theorem pyRound_range (q : ℚ) (h0 : 0 ≤ q) (h10 : q ≤ 10) :
    0 ≤ pyRound q ∧ pyRound q ≤ 10 :=
  ⟨le_pyRound q 0 (by exact_mod_cast h0), pyRound_le q 10 (by exact_mod_cast h10)⟩

/-- C2 (amended): whenever `ValidatorAgent.query_mistral`'s 200-processing
succeeds, each of the six dimension scores is an integer in 0..10 obtained by
Python-rounding the model's value, and `overall_score` is recomputed locally
as the integer sum of **all** rounded entries of `validation_scores` (the
model aggregate is discarded) — this equals the sum of the six exactly when
`validation_scores` carries no extra keys. -/
theorem c2_scores_rounded_overall (loads : String → Except String PyVal)
    (content : String) (v : PyVal) (h : process200v loads content = .ok v) :
    ∃ es vs vs',
      extractRepair loads content = .ok (.dict es) ∧
      List.lookup "validation_scores" es = some (.dict vs) ∧
      roundScores vs = .ok vs' ∧
      v = .dict (dictSet (dictSet es "validation_scores" (.dict vs'))
        "overall_score" (.num (sumScores vs'))) ∧
      dictGet? v "overall_score" = some (.num (sumScores vs')) ∧
      (∀ k ∈ sixKeys, ∃ sv q, List.lookup k vs = some sv ∧ pyFloatE sv = .ok q ∧
        0 ≤ q ∧ q ≤ 10 ∧
        List.lookup k vs' = some (.num ((pyRound q : ℤ) : ℚ)) ∧
        0 ≤ pyRound q ∧ pyRound q ≤ 10) := by
  unfold process200v at h
  by_cases hb : blankStr content = true
  · simp [hb] at h
  · simp only [hb, Bool.false_eq_true, if_false] at h
    cases hex : extractRepair loads content with
    | error e => rw [hex] at h; cases h
    | ok v0 =>
      rw [hex] at h
      simp only [] at h
      by_cases hval : validateScores v0 = true
      · cases v0 with
        | dict es =>
          rw [hval] at h
          simp only [if_true] at h
          cases hvs : List.lookup "validation_scores" es with
          | none =>
            simp only [hvs] at h
            exact Except.noConfusion h
          | some w =>
            simp only [hvs] at h
            cases w with
            | dict vs =>
              cases hr : roundScores vs with
              | error e0 =>
                simp only [hr] at h
                exact Except.noConfusion h
              | ok vs' =>
                simp only [hr] at h
                have hveq : v = .dict (dictSet (dictSet es "validation_scores" (.dict vs'))
                    "overall_score" (.num (sumScores vs'))) := by
                  cases h
                  rfl
                refine ⟨es, vs, vs', rfl, hvs, hr, hveq, ?_, ?_⟩
                · rw [hveq]
                  unfold dictGet?
                  exact lookup_dictSet_self _ _ _
                · intro k hk
                  obtain ⟨sv, q, hsv, hq, h0, h10⟩ := validateScores_key es vs hval hvs k hk
                  obtain ⟨q', hq', hlk⟩ := roundScores_lookup vs vs' k sv hr hsv
                  rw [hq] at hq'
                  cases hq'
                  obtain ⟨hr0, hr10⟩ := pyRound_range q h0 h10
                  exact ⟨sv, q, hsv, hq, h0, h10, hlk, hr0, hr10⟩
            | pnone => exact Except.noConfusion h
            | pbool b0 => exact Except.noConfusion h
            | num q0 => exact Except.noConfusion h
            | str s0 => exact Except.noConfusion h
            | list xs => exact Except.noConfusion h
        | pnone => simp [validateScores] at hval
        | pbool b0 => simp [validateScores] at hval
        | num q0 => simp [validateScores] at hval
        | str s0 => simp [validateScores] at hval
        | list xs => simp [validateScores] at hval
      · rw [Bool.not_eq_true] at hval
        rw [hval] at h
        simp only [Bool.false_eq_true, if_false] at h
        cases h

/-- C2 counterexample: on a model output whose `validation_scores` carries the
six required keys (each 5) plus an extra numeric key `hype: 100`,
`ValidatorAgent.query_mistral` succeeds on its first attempt and returns
`overall_score = 130` — the sum over *all* entries of `validation_scores` —
while the sum of the six dimension scores is 30. -/
theorem c2_counterexample :
    validatorRun miniLoads [.ok c2cexContent, .ok "", .ok ""] =
      ⟨.dict [("validation_scores",
          .dict [("uniqueness", .num 5), ("feasibility", .num 5), ("market_trend", .num 5),
                 ("scalability", .num 5), ("problem_relevance", .num 5),
                 ("user_adoption_potential", .num 5), ("hype", .num 100)]),
         ("overall_score", .num 130)],
        [], 1⟩ ∧
    (5 + 5 + 5 + 5 + 5 + 5 : ℚ) ≠ 130 := by
  constructor
  · with_unfolding_all rfl
  · norm_num

theorem c2_witness :
    process200v miniLoads c2okContent =
      .ok (.dict [("validation_scores",
          .dict [("uniqueness", .num 8), ("feasibility", .num 5), ("market_trend", .num 6),
                 ("scalability", .num 8), ("problem_relevance", .num 9),
                 ("user_adoption_potential", .num 4)]),
         ("overall_score", .num 40)]) ∧
    (∃ es vs vs',
      extractRepair miniLoads c2okContent = .ok (.dict es) ∧
      List.lookup "validation_scores" es = some (.dict vs) ∧
      roundScores vs = .ok vs' ∧
      (.dict [("validation_scores",
          .dict [("uniqueness", .num 8), ("feasibility", .num 5), ("market_trend", .num 6),
                 ("scalability", .num 8), ("problem_relevance", .num 9),
                 ("user_adoption_potential", .num 4)]),
         ("overall_score", .num 40)] : PyVal) =
        .dict (dictSet (dictSet es "validation_scores" (.dict vs'))
          "overall_score" (.num (sumScores vs'))) ∧
      dictGet? (.dict [("validation_scores",
          .dict [("uniqueness", .num 8), ("feasibility", .num 5), ("market_trend", .num 6),
                 ("scalability", .num 8), ("problem_relevance", .num 9),
                 ("user_adoption_potential", .num 4)]),
         ("overall_score", .num 40)] : PyVal) "overall_score" =
        some (.num (sumScores vs')) ∧
      (∀ k ∈ sixKeys, ∃ sv q, List.lookup k vs = some sv ∧ pyFloatE sv = .ok q ∧
        0 ≤ q ∧ q ≤ 10 ∧
        List.lookup k vs' = some (.num ((pyRound q : ℤ) : ℚ)) ∧
        0 ≤ pyRound q ∧ pyRound q ≤ 10)) := by
  have hok : process200v miniLoads c2okContent =
      .ok (.dict [("validation_scores",
          .dict [("uniqueness", .num 8), ("feasibility", .num 5), ("market_trend", .num 6),
                 ("scalability", .num 8), ("problem_relevance", .num 9),
                 ("user_adoption_potential", .num 4)]),
         ("overall_score", .num 40)]) := by
    with_unfolding_all rfl
  exact ⟨hok, c2_scores_rounded_overall miniLoads c2okContent _ hok⟩

/-! ### C1: exception handling at the orchestrator and endpoint -/

/-- C1 counterexample: on `env1` every stage before the enhancer degrades
internally, the enhancer's single 200 response carries only whitespace, and
`run_pipeline` raises `ValueError("Empty response from API")` to its caller
instead of returning an all-empty result. -/
theorem c1_counterexample :
    runPipeline miniLoads env1 = .error ⟨false, "Empty response from API"⟩ := by
  with_unfolding_all rfl

/-- C1 (amended): stage exceptions propagate out of `run_pipeline`; it is the
HTTP endpoint, one level up, that catches them and converts them into an
all-empty result with a populated error string (`Invalid JSON response:` for
JSONDecodeError, `Pipeline error:` otherwise), and passes successful results
through unchanged, so the endpoint never observes an unhandled exception. -/
theorem c1_endpoint_catches (loads : String → Except String PyVal) :
    (∀ env e, runPipeline loads env = .error e →
      appHandler loads env =
        ⟨[], [], [],
         some ((if e.jsonKind then "Invalid JSON response: " else "Pipeline error: ") ++
           e.msg)⟩) ∧
    (∀ env r, runPipeline loads env = .ok r → appHandler loads env = r) := by
  constructor
  · intro env e h
    unfold appHandler
    rw [h]
  · intro env r h
    unfold appHandler
    rw [h]

theorem c1_witness :
    runPipeline miniLoads env1 = .error ⟨false, "Empty response from API"⟩ ∧
    appHandler miniLoads env1 =
      ⟨[], [], [],
       some ((if (false : Bool) then "Invalid JSON response: " else "Pipeline error: ") ++
         "Empty response from API")⟩ := by
  have h : runPipeline miniLoads env1 = .error ⟨false, "Empty response from API"⟩ := by
    with_unfolding_all rfl
  exact ⟨h, (c1_endpoint_catches miniLoads).1 env1 ⟨false, "Empty response from API"⟩ h⟩
